import Mathlib

/-!
A verification development for the sirius-dive repository: a shallow
embedding of the dive-log decoder (`src/parser.rs`) and of the pure,
protocol-level logic of the SDO-over-BLE engine (`src/protocol.rs`),
together with theorems settling the specified properties.

Byte sequences are modelled as `List Nat`; machine integers are modelled
as `Nat`/`Int` with explicit `% 2^w` where overflow matters.  Bit masks
on low bits after shifts are written with `/` and `%`
(`x & 0x1F = x % 32`, `(x >> 5) & 0x3F = x / 32 % 64`, and so on).
Stateful device I/O (the BLE connection) is abstracted by oracle
functions supplying the bytes each exchange yields, and the commands the
engine issues are recorded in an explicit trace.
-/

namespace SiriusDive

/-- Little-endian u16 read, `read_u16_le` in `parser.rs`.  The source
indexes `data[offset]` and `data[offset + 1]` (a panic when out of
bounds); every call site is bounds-guarded, and out-of-bounds freedom is
proved separately via the `_ob` variants, so the embedding totalises the
reads with a zero default. -/
def read_u16_le (data : List Nat) (offset : Nat) : Nat :=
  (data.get? offset).getD 0 + 256 * (data.get? (offset + 1)).getD 0

/-- Little-endian u32 read, `read_u32_le` in `parser.rs`. -/
def read_u32_le (data : List Nat) (offset : Nat) : Nat :=
  (data.get? offset).getD 0 + 256 * (data.get? (offset + 1)).getD 0
    + 65536 * (data.get? (offset + 2)).getD 0
    + 16777216 * (data.get? (offset + 3)).getD 0

/-- Civil date-time with no zone: the shape of `chrono::NaiveDateTime`
as used by the decoder (seconds are always zero there). -/
structure NaiveDateTime where
  year : Int
  month : Nat
  day : Nat
  hour : Nat
  minute : Nat
  second : Nat
  deriving DecidableEq

/-- Proleptic-Gregorian leap-year rule (as in `chrono`). -/
def is_leap_year (y : Int) : Bool :=
  y % 4 == 0 && (y % 100 != 0 || y % 400 == 0)

/-- Days in a calendar month (as validated by `chrono`'s
`NaiveDate::from_ymd_opt`); `0` for an out-of-range month. -/
def days_in_month (y : Int) (m : Nat) : Nat :=
  match m with
  | 1 => 31
  | 2 => if is_leap_year y then 29 else 28
  | 3 => 31
  | 4 => 30
  | 5 => 31
  | 6 => 30
  | 7 => 31
  | 8 => 31
  | 9 => 30
  | 10 => 31
  | 11 => 30
  | 12 => 31
  | _ => 0

/-- Success condition of `NaiveDate::from_ymd_opt y m d` (the 12-bit
years produced by the decoder are far inside chrono's year range). -/
def ymd_valid (y : Int) (m d : Nat) : Bool :=
  1 ≤ m && m ≤ 12 && 1 ≤ d && d ≤ days_in_month y m

/-- Success condition of `NaiveDate::and_hms_opt h m s`. -/
def hms_valid (h m s : Nat) : Bool :=
  h ≤ 23 && m ≤ 59 && s ≤ 59

/-- `decode_genius_datetime` in `parser.rs`: 32-bit packed bitfield,
bits 0-4 hour, 5-10 minute, 11-15 day, 16-19 month, 20-31 year; invalid
fields fall back to the sentinel 2000-01-01 00:00:00. -/
def decode_genius_datetime (packed : Nat) : NaiveDateTime :=
  let hour := packed % 32
  let minute := packed / 32 % 64
  let day := packed / 2048 % 32
  let month := packed / 65536 % 16
  let year : Int := (packed / 1048576 % 4096 : Nat)
  if ymd_valid year month day && hms_valid hour minute 0 then
    ⟨year, month, day, hour, minute, 0⟩
  else
    ⟨2000, 1, 1, 0, 0, 0⟩

/-- Modelled from the spec: the inverse of the packed-datetime bitfield
layout (hour in bits 0-4, minute in 5-10, day in 11-15, month in 16-19,
year in 20-31), used to state the round-trip law.  There is no encoder
in the source; this follows the spec's words. -/
def encode_genius_datetime (dt : NaiveDateTime) : Int :=
  (dt.hour : Int) + 32 * (dt.minute : Int) + 2048 * (dt.day : Int)
    + 65536 * (dt.month : Int) + 1048576 * dt.year

/-- `DiveMode` in `types.rs`. -/
inductive DiveMode where
  | Air
  | Gauge
  | Nitrox
  | Freedive
  deriving DecidableEq

/-- `GasMix` in `types.rs` (`o2` is a `u8` percentage). -/
structure GasMix where
  o2 : Nat
  deriving DecidableEq

/-- `Sample` in `types.rs`.  The `f64` fields hold exact decimal
divisions of raw integers (`raw / 10`, `raw / 100`); they are modelled
as rationals. -/
structure Sample where
  time_s : Nat
  depth_m : ℚ
  temp_c : Option ℚ
  pressure_bar : Option ℚ

/-- `DiveLog` in `types.rs`. -/
structure DiveLog where
  number : Nat
  datetime : NaiveDateTime
  duration_seconds : Nat
  max_depth_m : ℚ
  dive_mode : DiveMode
  gas_mixes : List GasMix
  samples : List Sample

/-- `u16 as i16` reinterpretation (used for the temperature field). -/
def as_i16 (n : Nat) : Int :=
  if n < 32768 then (n : Int) else (n : Int) - 65536

/-- Record sizes from `parser.rs`. -/
def RECORD_DSTR : Nat := 58

def RECORD_TISS : Nat := 138

def RECORD_DPRS : Nat := 34

def RECORD_AIRS : Nat := 16

def RECORD_DEND : Nat := 162

/-- The ASCII bytes of the record tag `b"DSTR"`. -/
def TAG_DSTR : List Nat := [0x44, 0x53, 0x54, 0x52]

/-- The ASCII bytes of the record tag `b"TISS"`. -/
def TAG_TISS : List Nat := [0x54, 0x49, 0x53, 0x53]

/-- The ASCII bytes of the record tag `b"DPRS"`. -/
def TAG_DPRS : List Nat := [0x44, 0x50, 0x52, 0x53]

/-- The ASCII bytes of the record tag `b"AIRS"`. -/
def TAG_AIRS : List Nat := [0x41, 0x49, 0x52, 0x53]

/-- The ASCII bytes of the record tag `b"DEND"`. -/
def TAG_DEND : List Nat := [0x44, 0x45, 0x4E, 0x44]

/-- The scan loop of `parse_ecop_profile` in `parser.rs`.  State: scan
`offset`, running `time_s`, `last_pressure_bar`.  The source's `while`
loop has no fuel; since the offset strictly increases on every
iteration, `profile.length + 1` iterations always suffice (proved via
the `_ob` variant below), so the fuel never runs out at the call site. -/
def ecop_profile_loop (profile : List Nat) (sample_interval : Nat) :
    Nat → Nat → Nat → Option ℚ → List Sample
  | 0, _, _, _ => []
  | fuel + 1, offset, time_s, last_pressure_bar =>
    if offset + 4 ≤ profile.length then
      let tag := (profile.drop offset).take 4
      if tag = TAG_DSTR then
        ecop_profile_loop profile sample_interval fuel (offset + RECORD_DSTR)
          time_s last_pressure_bar
      else if tag = TAG_TISS then
        ecop_profile_loop profile sample_interval fuel (offset + RECORD_TISS)
          time_s last_pressure_bar
      else if tag = TAG_DPRS then
        if offset + RECORD_DPRS > profile.length then []
        else
          let depth_raw := read_u16_le profile (offset + 4)
          let depth_m : ℚ := (depth_raw : ℚ) / 10
          let temp_raw := as_i16 (read_u16_le profile (offset + 8))
          let temp_c : Option ℚ :=
            if temp_raw > 0 then some ((temp_raw : ℚ) / 10) else none
          { time_s := time_s, depth_m := depth_m, temp_c := temp_c,
            pressure_bar := last_pressure_bar }
            :: ecop_profile_loop profile sample_interval fuel
                (offset + RECORD_DPRS) (time_s + sample_interval) last_pressure_bar
      else if tag = TAG_AIRS then
        if offset + RECORD_AIRS > profile.length then []
        else
          let pressure_raw := read_u16_le profile (offset + 4)
          let lp :=
            if pressure_raw > 0 then some ((pressure_raw : ℚ) / 100)
            else last_pressure_bar
          ecop_profile_loop profile sample_interval fuel (offset + RECORD_AIRS)
            time_s lp
      else if tag = TAG_DEND then
        ecop_profile_loop profile sample_interval fuel (offset + RECORD_DEND)
          time_s last_pressure_bar
      else
        ecop_profile_loop profile sample_interval fuel (offset + 1)
          time_s last_pressure_bar
    else []

/-- `parse_ecop_profile` in `parser.rs`: skip the 4-byte object
classifier when bytes 4..8 spell `DSTR`, then run the scan loop. -/
def parse_ecop_profile (profile : List Nat) (sample_interval : Nat) : List Sample :=
  let offset :=
    if 8 ≤ profile.length && (profile.drop 4).take 4 = TAG_DSTR then 4 else 0
  ecop_profile_loop profile sample_interval (profile.length + 1) offset 0 none

/-- Slice `data[offset..offset+len]` as in Rust: `none` exactly when the
range runs past the end (where Rust would panic). -/
def slice? (data : List Nat) (offset len : Nat) : Option (List Nat) :=
  if offset + len ≤ data.length then some ((data.drop offset).take len) else none

/-- `read_u16_le` with explicit bounds checking: `none` exactly on the
out-of-bounds accesses that panic in Rust. -/
def read_u16_ob (data : List Nat) (offset : Nat) : Option Nat :=
  match data.get? offset, data.get? (offset + 1) with
  | some lo, some hi => some (lo + 256 * hi)
  | _, _ => none

/-- The scan loop of `parse_ecop_profile` with every byte access bounds
checked (`none` on any access Rust would panic on) and with fuel
exhaustion also reported as `none`, so that agreement with
`ecop_profile_loop` certifies both in-bounds access and termination. -/
def ecop_profile_loop_ob (profile : List Nat) (sample_interval : Nat) :
    Nat → Nat → Nat → Option ℚ → Option (List Sample)
  | 0, _, _, _ => none
  | fuel + 1, offset, time_s, last_pressure_bar =>
    if offset + 4 ≤ profile.length then
      match slice? profile offset 4 with
      | none => none
      | some tag =>
        if tag = TAG_DSTR then
          ecop_profile_loop_ob profile sample_interval fuel (offset + RECORD_DSTR)
            time_s last_pressure_bar
        else if tag = TAG_TISS then
          ecop_profile_loop_ob profile sample_interval fuel (offset + RECORD_TISS)
            time_s last_pressure_bar
        else if tag = TAG_DPRS then
          if offset + RECORD_DPRS > profile.length then some []
          else
            match read_u16_ob profile (offset + 4), read_u16_ob profile (offset + 8) with
            | some depth_raw, some traw =>
              let depth_m : ℚ := (depth_raw : ℚ) / 10
              let temp_raw := as_i16 traw
              let temp_c : Option ℚ :=
                if temp_raw > 0 then some ((temp_raw : ℚ) / 10) else none
              (ecop_profile_loop_ob profile sample_interval fuel
                  (offset + RECORD_DPRS) (time_s + sample_interval) last_pressure_bar).map
                (fun rest =>
                  { time_s := time_s, depth_m := depth_m, temp_c := temp_c,
                    pressure_bar := last_pressure_bar } :: rest)
            | _, _ => none
        else if tag = TAG_AIRS then
          if offset + RECORD_AIRS > profile.length then some []
          else
            match read_u16_ob profile (offset + 4) with
            | some pressure_raw =>
              let lp :=
                if pressure_raw > 0 then some ((pressure_raw : ℚ) / 100)
                else last_pressure_bar
              ecop_profile_loop_ob profile sample_interval fuel (offset + RECORD_AIRS)
                time_s lp
            | none => none
        else if tag = TAG_DEND then
          ecop_profile_loop_ob profile sample_interval fuel (offset + RECORD_DEND)
            time_s last_pressure_bar
        else
          ecop_profile_loop_ob profile sample_interval fuel (offset + 1)
            time_s last_pressure_bar
    else some []

/-- `parse_ecop_profile` with bounds-checked accesses: the initial
classifier peek at bytes 4..8 is guarded by `8 ≤ length` exactly as in
the source. -/
def parse_ecop_profile_ob (profile : List Nat) (sample_interval : Nat) :
    Option (List Sample) :=
  if 8 ≤ profile.length then
    match slice? profile 4 4 with
    | none => none
    | some w =>
      ecop_profile_loop_ob profile sample_interval (profile.length + 1)
        (if w = TAG_DSTR then 4 else 0) 0 none
  else
    ecop_profile_loop_ob profile sample_interval (profile.length + 1) 0 0 none

/-- The gas-mix slot loop of `parse_dive_ecop` (`for i in 0..5` with
`break` once the four parameter bytes run past the header); `fuel`
counts the remaining slots, starting at 5. -/
def gas_slots (header : List Nat) : Nat → Nat → List GasMix
  | _, 0 => []
  | i, fuel + 1 =>
    let gas_offset := 0x54 + i * 20
    if gas_offset + 4 > header.length then []
    else
      let gas_params := read_u32_le header gas_offset
      let o2 := gas_params % 128
      let state := gas_params / 2097152 % 4
      if state > 0 && state < 3 && o2 > 0 && o2 ≤ 100 then
        { o2 := o2 } :: gas_slots header (i + 1) fuel
      else gas_slots header (i + 1) fuel

/-- Modelled from the spec's per-slot rule: slot `i` contributes a mix
exactly when its four parameter bytes lie inside the header, its state
field is 1 or 2, and `0 < o2 ≤ 100`. -/
def gas_slot_spec (header : List Nat) (i : Nat) : Option GasMix :=
  let gas_offset := 0x54 + i * 20
  if gas_offset + 4 ≤ header.length then
    let p := read_u32_le header gas_offset
    let o2 := p % 128
    let state := p / 2097152 % 4
    if (state = 1 ∨ state = 2) ∧ 0 < o2 ∧ o2 ≤ 100 then some { o2 := o2 }
    else none
  else none

/-- Modelled from the spec: the list of surviving gas slots among the
five header slots. -/
def gas_slots_spec (header : List Nat) : List GasMix :=
  (List.range 5).filterMap (gas_slot_spec header)

/-- `parse_dive_ecop` in `parser.rs`.  The u32 subtraction in the
duration formula wraps modulo `2^32` (two's-complement semantics of a
release build; a debug build would abort instead of producing a value). -/
def parse_dive_ecop (dive_index : Nat) (header profile : List Nat) :
    Except String DiveLog :=
  if header.length < 0x60 then .error "Dive header too short"
  else
    let dive_number := read_u32_le header 0x04
    let ts_packed := read_u32_le header 0x08
    let datetime := decode_genius_datetime ts_packed
    let settings := read_u32_le header 0x0C
    let mode_val := settings % 16
    let dive_mode :=
      if mode_val = 0 then DiveMode.Air
      else if mode_val = 1 ∨ mode_val = 2 ∨ mode_val = 3 ∨ mode_val = 6 ∨ mode_val = 7 then
        DiveMode.Nitrox
      else if mode_val = 4 then DiveMode.Gauge
      else if mode_val = 5 then DiveMode.Freedive
      else DiveMode.Air
    let surftime_min := settings / 8192 % 64
    let nsamples := read_u16_le header 0x20
    let max_depth_raw := read_u16_le header 0x22
    let max_depth_m : ℚ := (max_depth_raw : ℚ) / 10
    let sample_interval : Nat := 5
    let duration_seconds :=
      (((nsamples * sample_interval : Nat) - (surftime_min * 60 : Nat) : Int) % 2 ^ 32).toNat
    let kept := gas_slots header 0 5
    let gas_mixes := if kept = [] then [{ o2 := 21 }] else kept
    let samples := parse_ecop_profile profile sample_interval
    .ok
      { number := if dive_number > 0 then dive_number else dive_index + 1,
        datetime := datetime,
        duration_seconds := duration_seconds,
        max_depth_m := max_depth_m,
        dive_mode := dive_mode,
        gas_mixes := gas_mixes,
        samples := samples }

/-- Protocol constant `ACK` (`protocol.rs`). -/
def ACK : Nat := 0xAA

/-- Protocol constant `END` (`protocol.rs`). -/
def END : Nat := 0xEA

/-- SDO status byte: segmented transfer. -/
def SDO_SEGMENTED : Nat := 0x41

/-- SDO status byte: expedited transfer. -/
def SDO_EXPEDITED : Nat := 0x42

/-- SDO status byte: abort / object not found. -/
def SDO_ABORT : Nat := 0x80

/-- Segment command with toggle 0. -/
def CMD_SDO_SEGMENT_0 : Nat := 0xAC

/-- Segment command with toggle 1. -/
def CMD_SDO_SEGMENT_1 : Nat := 0xFE

/-- `validate_response` in `protocol.rs`: a response frame is accepted
exactly when it is non-empty, starts with `ACK` and ends with `END`. -/
def validate_response (data : List Nat) : Except String Unit :=
  if data = [] then .error "Empty response"
  else if data.headD 0 ≠ ACK then .error "Expected ACK"
  else if data.getLastD 0 ≠ END then .error "Expected END"
  else .ok ()

/-- The ecop slice taken by `ecop_read` from a BF response: strip the
leading `ACK` byte and the trailing `END` byte when one is present
(`response[1..ecop_end]`). -/
def ecop_of (response : List Nat) : List Nat :=
  let ecop_end :=
    if response.getLastD 0 = END then response.length - 1 else response.length
  (response.take ecop_end).drop 1

/-- The segmented-read loop of `ecop_read` in `protocol.rs`.
`seg_recv i n` abstracts `recv_sdo_segment` for the `i`-th issued
segment command with expected payload `n`: it yields the bytes between
`ACK` and `END` (the toggle/status byte followed by the payload).  The
trace records, for each issued segment command, the toggle value, the
command byte written (`AC` or `FE`), and the requested segment size.
The source loop has no fuel; `data_size` iterations suffice whenever
every segment contributes at least one payload byte, and exhaustion is
reported as an error so it cannot be mistaken for a result. -/
def sdo_segment_pump (seg_recv : Nat → Nat → List Nat) (data_size : Nat) :
    Nat → Nat → Nat → List Nat → List (Nat × Nat × Nat) →
    Except String (List Nat × List (Nat × Nat × Nat))
  | 0, _, _, data, trace =>
    if data.length < data_size then .error "out of fuel"
    else .ok (data.take data_size, trace)
  | fuel + 1, i, toggle, data, trace =>
    if data.length < data_size then
      let remaining := data_size - data.length
      let segment_size := min remaining 241
      let cmd := if toggle = 0 then CMD_SDO_SEGMENT_0 else CMD_SDO_SEGMENT_1
      let segment := seg_recv i segment_size
      if segment = [] then .error "Empty SDO segment"
      else
        sdo_segment_pump seg_recv data_size fuel (i + 1) (toggle ^^^ 1)
          (data ++ segment.tail) (trace ++ [(toggle, cmd, segment_size)])
    else .ok (data.take data_size, trace)

/-- The response-processing logic of `ecop_read` in `protocol.rs`,
applied to the accumulated BF response frame (`AA … EA`).  The result
pairs the returned data bytes with the trace of issued segment
commands (empty for an expedited transfer). -/
def ecop_read_process (seg_recv : Nat → Nat → List Nat) (response : List Nat) :
    Except String (List Nat × List (Nat × Nat × Nat)) :=
  if response.length < 6 then .error "BF response too short"
  else
    let ecop := ecop_of response
    if ecop = [] then .error "Empty ECOP response"
    else
      let status := ecop.headD 0
      if status = SDO_ABORT then .error "SDO abort"
      else if status = SDO_EXPEDITED then
        if ecop.length < 16 then .error "Expedited response too short"
        else .ok ((ecop.drop 4).take 12, [])
      else if status = SDO_SEGMENTED then
        if ecop.length < 6 then .error "Segmented response too short"
        else
          let data_size := (ecop.get? 4).getD 0 + 256 * (ecop.get? 5).getD 0
          sdo_segment_pump seg_recv data_size data_size 0 0 [] []
      else .error "Unknown SDO status"

/-- The probe loop of `count_dives` in `protocol.rs`.  `probe n`
abstracts the BF exchange for dive object `0x3000 + n` (sub-index 4):
it yields the ecop bytes (status byte first) of that exchange.  The
loop stops on an empty ecop or abort status, and after incrementing
checks the hard cap of 256; `fuel` starts at 256, which the cap makes
sufficient. -/
def count_dives_loop (probe : Nat → List Nat) : Nat → Nat → Nat
  | 0, count => count
  | fuel + 1, count =>
    let ecop := probe count
    if ecop = [] || ecop.headD 0 = SDO_ABORT then count
    else
      let c := count + 1
      if c ≥ 256 then c
      else count_dives_loop probe fuel c

/-- `count_dives` in `protocol.rs`, over the probe oracle. -/
def count_dives (probe : Nat → List Nat) : Nat :=
  count_dives_loop probe 256 0

/-- Concrete header for the duration claim: 0x60 zero bytes except that
the settings word at 0x0C is `0x2000` (surface-time field = 1 minute);
the sample count at 0x20 is zero. -/
def hdr_surf : List Nat := (List.replicate 96 0).set 13 0x20

/-- Concrete header for the duration witness: 0x60 zero bytes except
that the sample count at 0x20 is 100. -/
def hdr_nsamples : List Nat := (List.replicate 96 0).set 32 100

/-- The 17-byte frame of the spec's expedited-read scenario:
`AA 42 00 20 04 41 42 43 00 00 00 00 00 00 00 00 EA`. -/
def resp_expedited_17 : List Nat :=
  [0xAA, 0x42, 0x00, 0x20, 0x04, 0x41, 0x42, 0x43,
   0x00, 0x00, 0x00, 0x00, 0x00, 0x00, 0x00, 0x00, 0xEA]

/-- The well-formed 18-byte expedited frame carrying the 12 data bytes
`41 42 43 00 00 00 00 00 00 00 00 00` (the string `ABC` padded with
NULs). -/
def resp_expedited_18 : List Nat :=
  [0xAA, 0x42, 0x00, 0x20, 0x04, 0x41, 0x42, 0x43,
   0x00, 0x00, 0x00, 0x00, 0x00, 0x00, 0x00, 0x00, 0x00, 0xEA]

/-- A profile made of one `DSTR` record whose filler bytes 4..8 spell
`DSTR` again, followed by one complete `DPRS` record. -/
def prof_dstr_trap : List Nat :=
  TAG_DSTR ++ TAG_DSTR ++ List.replicate 50 0 ++ TAG_DPRS ++ List.replicate 30 0

/-- Bytes read through `getD` from a byte-valued list stay below 256. -/
theorem getD_lt_of_bytes (l : List Nat) (hb : ∀ b ∈ l, b < 256) (o : Nat) :
    (l.get? o).getD 0 < 256 := by
  cases h : l.get? o with
  | none => simp
  | some v => simpa using hb v (List.get?_mem h)

/-- C2 counterexample: the packed value `0x7E95A9A5` does not decode to
the civil datetime 2025-08-13 13:05:00 claimed by the spec. -/
theorem decode_packed_counterexample :
    decode_genius_datetime 0x7E95A9A5 ≠ ⟨2025, 8, 13, 13, 5, 0⟩ := by decide

/-- C2 (amended): decoding the packed 32-bit value `0x7E95A9A5` with the
bitfield layout (bits 0..4 hour, 5..10 minute, 11..15 day, 16..19 month,
20..31 year) yields the civil datetime 2025-05-21 05:13:00. -/
theorem decode_packed_7E95A9A5 :
    decode_genius_datetime 0x7E95A9A5 = ⟨2025, 5, 21, 5, 13, 0⟩ := by decide

/-- C7: response framing validation succeeds exactly for the byte
sequences that are non-empty, start with `ACK` (0xAA) and end with
`END` (0xEA). -/
theorem validate_response_framing (b : List Nat) :
    validate_response b = .ok () ↔ b.head? = some ACK ∧ b.getLast? = some END := by
  cases b with
  | nil => simp [validate_response]
  | cons x xs =>
    have hlast : (x :: xs).getLast? = some ((x :: xs).getLast (by simp)) :=
      List.getLast?_eq_getLast _ _
    have hlastD : (x :: xs).getLastD 0 = (x :: xs).getLast (by simp) := by
      rw [List.getLastD_eq_getLast?, hlast]; rfl
    simp only [validate_response, List.headD_cons, List.head?_cons, hlast, hlastD]
    split_ifs with h1 h2 h3 <;>
      simp_all [Option.some_inj]

/-- A little-endian u16 read of byte values is below 65536. -/
theorem read_u16_le_lt (l : List Nat) (hb : ∀ b ∈ l, b < 256) (o : Nat) :
    read_u16_le l o < 65536 := by
  have h1 := getD_lt_of_bytes l hb o
  have h2 := getD_lt_of_bytes l hb (o + 1)
  unfold read_u16_le
  omega

/-- C1 counterexample: on a header with `nsamples = 0` and
`surftime_minutes = 1` the parse succeeds and the u32 duration wraps to
`2^32 - 60`, which is not the exact value `5*0 - 60*1 = -60` the claim
asserts for every header. -/
theorem duration_formula_counterexample :
    read_u16_le hdr_surf 0x20 = 0 ∧
    read_u32_le hdr_surf 0x0C / 8192 % 64 = 1 ∧
    (parse_dive_ecop 0 hdr_surf []).toOption.map DiveLog.duration_seconds =
      some 4294967236 ∧
    ((4294967236 : Int) ≠ 5 * 0 - 60 * 1) := by decide

/-- C1 (amended): for every header of at least 0x60 byte values,
`parse_dive_ecop` sets `duration_seconds` to `5*N - 60*M` computed with
wrapping u32 subtraction, i.e. `(5*N - 60*M) mod 2^32`; the exact
formula `5*N - 60*M` holds whenever `60*M ≤ 5*N`. -/
theorem duration_formula_wrapping (dive_index : Nat) (header profile : List Nat)
    (hlen : 0x60 ≤ header.length) (hbytes : ∀ b ∈ header, b < 256) :
    ∃ d, parse_dive_ecop dive_index header profile = .ok d ∧
      d.duration_seconds =
        ((((read_u16_le header 0x20 * 5 : Nat) : Int)
            - ((read_u32_le header 0x0C / 8192 % 64 * 60 : Nat) : Int)) % 2 ^ 32).toNat ∧
      (read_u32_le header 0x0C / 8192 % 64 * 60 ≤ read_u16_le header 0x20 * 5 →
        d.duration_seconds =
          read_u16_le header 0x20 * 5 - read_u32_le header 0x0C / 8192 % 64 * 60) := by
  have hne : ¬ header.length < 0x60 := by omega
  unfold parse_dive_ecop
  rw [if_neg hne]
  refine ⟨_, rfl, rfl, fun hle => ?_⟩
  have hN : read_u16_le header 0x20 < 65536 := read_u16_le_lt header hbytes 0x20
  have hM : read_u32_le header 0x0C / 8192 % 64 < 64 := Nat.mod_lt _ (by norm_num)
  show ((((read_u16_le header 0x20 * 5 : Nat) : Int)
      - ((read_u32_le header 0x0C / 8192 % 64 * 60 : Nat) : Int)) % 2 ^ 32).toNat = _
  have h1 : (((read_u16_le header 0x20 * 5 : Nat) : Int)
      - ((read_u32_le header 0x0C / 8192 % 64 * 60 : Nat) : Int))
      = ((read_u16_le header 0x20 * 5 - read_u32_le header 0x0C / 8192 % 64 * 60 : Nat) : Int) := by
    push_cast [hle]
    ring
  rw [h1, Int.emod_eq_of_lt (by positivity) (by norm_num; omega), Int.toNat_natCast]

/-- C1 witness: a concrete header with `nsamples = 100` and zero surface
time, for which the duration comes out as the exact `5*100 - 60*0`. -/
theorem duration_formula_wrapping_witness :
    0x60 ≤ hdr_nsamples.length ∧ (∀ b ∈ hdr_nsamples, b < 256) ∧
    ∃ d, parse_dive_ecop 0 hdr_nsamples [] = .ok d ∧
      d.duration_seconds =
        ((((read_u16_le hdr_nsamples 0x20 * 5 : Nat) : Int)
            - ((read_u32_le hdr_nsamples 0x0C / 8192 % 64 * 60 : Nat) : Int)) % 2 ^ 32).toNat ∧
      (read_u32_le hdr_nsamples 0x0C / 8192 % 64 * 60 ≤ read_u16_le hdr_nsamples 0x20 * 5 →
        d.duration_seconds =
          read_u16_le hdr_nsamples 0x20 * 5
            - read_u32_le hdr_nsamples 0x0C / 8192 % 64 * 60) :=
  ⟨by decide, by decide,
    duration_formula_wrapping 0 hdr_nsamples [] (by decide) (by decide)⟩

/-- C9 counterexample: the packed value `0x7E92F000` has every bitfield
inside the ranges the claim lists (hour 0, minute 0, day 30, month 2,
year 2025), yet 2025-02-30 is not a calendar date, so the decoder
substitutes the sentinel and re-encoding does not reproduce the input. -/
theorem datetime_roundtrip_counterexample :
    (0x7E92F000 : Nat) < 2 ^ 32 ∧
    0x7E92F000 % 32 ≤ 23 ∧ 0x7E92F000 / 32 % 64 ≤ 59 ∧
    1 ≤ 0x7E92F000 / 2048 % 32 ∧ 0x7E92F000 / 2048 % 32 ≤ 31 ∧
    1 ≤ 0x7E92F000 / 65536 % 16 ∧ 0x7E92F000 / 65536 % 16 ≤ 12 ∧
    encode_genius_datetime (decode_genius_datetime 0x7E92F000) ≠ 0x7E92F000 := by
  decide

/-- C9 (amended): re-encoding the decoded datetime with the inverse
bitfield layout reproduces every packed 32-bit value whose hour is at
most 23, minute at most 59, month in 1..12 and day in 1..(days of that
month of that year) — i.e. whose fields form a valid calendar datetime,
not merely range-valid fields. -/
theorem datetime_roundtrip (p : Nat) (hp : p < 2 ^ 32)
    (hh : p % 32 ≤ 23) (hmin : p / 32 % 64 ≤ 59)
    (hm1 : 1 ≤ p / 65536 % 16) (hm2 : p / 65536 % 16 ≤ 12)
    (hd1 : 1 ≤ p / 2048 % 32)
    (hd2 : p / 2048 % 32 ≤
      days_in_month ((p / 1048576 % 4096 : Nat) : Int) (p / 65536 % 16)) :
    encode_genius_datetime (decode_genius_datetime p) = p := by
  unfold decode_genius_datetime
  have hcond : (ymd_valid ((p / 1048576 % 4096 : Nat) : Int) (p / 65536 % 16) (p / 2048 % 32)
      && hms_valid (p % 32) (p / 32 % 64) 0) = true := by
    unfold ymd_valid hms_valid
    simp only [Bool.and_eq_true, decide_eq_true_eq]
    exact ⟨⟨⟨⟨hm1, hm2⟩, hd1⟩, hd2⟩, ⟨hh, hmin⟩, by norm_num⟩
  simp only [hcond, if_true]
  unfold encode_genius_datetime
  push_cast
  have : p % 32 + 32 * (p / 32 % 64) + 2048 * (p / 2048 % 32) + 65536 * (p / 65536 % 16)
      + 1048576 * (p / 1048576 % 4096) = p := by omega
  exact_mod_cast congrArg (Nat.cast : Nat → Int) this

/-- C9 witness: the valid packed datetime `0x7E95A9A5` (2025-05-21
05:13) round-trips. -/
theorem datetime_roundtrip_witness :
    (0x7E95A9A5 : Nat) < 2 ^ 32 ∧
    encode_genius_datetime (decode_genius_datetime 0x7E95A9A5) = 0x7E95A9A5 :=
  ⟨by decide,
    datetime_roundtrip 0x7E95A9A5 (by decide) (by decide) (by decide) (by decide)
      (by decide) (by decide) (by decide)⟩

/-- The probe loop of `count_dives` returns the first abort index capped
at 256, provided every earlier probe yields a non-empty, non-abort ecop
response. -/
theorem count_dives_loop_spec (probe : Nat → List Nat) (n : Nat)
    (h1 : ∀ k, k < n → probe k ≠ [] ∧ (probe k).headD 0 ≠ SDO_ABORT)
    (h2 : (probe n).headD 0 = SDO_ABORT) :
    ∀ fuel count, count + fuel = 256 → count ≤ n →
      count_dives_loop probe fuel count = min n 256 := by
  intro fuel
  induction fuel with
  | zero =>
    intro count hcf hcn
    unfold count_dives_loop
    omega
  | succ fuel ih =>
    intro count hcf hcn
    by_cases hcn' : count = n
    · subst hcn'
      have hcond :
          ((probe count = []) || ((probe count).headD 0 = SDO_ABORT) : Bool) = true := by
        simp only [Bool.or_eq_true, decide_eq_true_eq]
        exact Or.inr h2
      simp only [count_dives_loop, hcond, if_true]
      omega
    · have hlt : count < n := lt_of_le_of_ne hcn hcn'
      obtain ⟨hne, hnab⟩ := h1 count hlt
      have hcond :
          ((probe count = []) || ((probe count).headD 0 = SDO_ABORT) : Bool) = false := by
        simp only [Bool.or_eq_false_iff, decide_eq_false_iff_not]
        exact ⟨hne, hnab⟩
      simp only [count_dives_loop, hcond, Bool.false_eq_true, if_false]
      by_cases h256 : count + 1 ≥ 256
      · rw [if_pos h256]
        omega
      · rw [if_neg h256]
        exact ih (count + 1) (by omega) (by omega)

/-- C5: `count_dives` probes dive slots in order and returns the index
of the first probe whose ecop status byte is the abort code 0x80,
capped at the hard limit 256 (earlier probes being non-empty and
non-abort). -/
theorem count_dives_first_abort (probe : Nat → List Nat) (n : Nat)
    (h1 : ∀ k, k < n → probe k ≠ [] ∧ (probe k).headD 0 ≠ SDO_ABORT)
    (h2 : (probe n).headD 0 = SDO_ABORT) :
    count_dives probe = min n 256 :=
  count_dives_loop_spec probe n h1 h2 256 0 rfl (Nat.zero_le n)

/-- C5 witness: when the very first probe aborts, `count_dives`
returns 0. -/
theorem count_dives_first_abort_witness :
    ((fun _ : Nat => [SDO_ABORT]) 0).headD 0 = SDO_ABORT ∧
    count_dives (fun _ : Nat => [SDO_ABORT]) = 0 :=
  ⟨rfl,
    (count_dives_first_abort (fun _ : Nat => [SDO_ABORT]) 0
      (fun k hk => absurd hk (Nat.not_lt_zero k)) rfl).trans rfl⟩

/-- C3 counterexample: on the 17-byte frame the spec's scenario lists,
the ecop slice has only 15 bytes (11 data bytes), so `ecop_read`
rejects the expedited response instead of returning 12 data bytes. -/
theorem ecop_read_scenario_counterexample :
    resp_expedited_17.length = 17 ∧
    (ecop_of resp_expedited_17).length = 15 ∧
    ecop_read_process (fun _ _ => []) resp_expedited_17 =
      .error "Expedited response too short" :=
  ⟨rfl, rfl, rfl⟩

/-- C3 (amended): on a BF response of at least 6 bytes whose ecop slice
has status 0x42 (expedited) and at least 16 bytes, `ecop_read` returns
exactly the 12 data bytes `ecop[4..16]` and issues no segment command;
in the spec scenario the frame must be 18 bytes long
(`AA 42 00 20 04` + 12 data bytes + `EA`) so that the data bytes are
`41 42 43` followed by nine NULs. -/
theorem ecop_read_expedited (seg_recv : Nat → Nat → List Nat) (response : List Nat)
    (h6 : 6 ≤ response.length)
    (hst : (ecop_of response).headD 0 = SDO_EXPEDITED)
    (hlen : 16 ≤ (ecop_of response).length) :
    ecop_read_process seg_recv response =
      .ok (((ecop_of response).drop 4).take 12, []) ∧
    (((ecop_of response).drop 4).take 12).length = 12 := by
  constructor
  · have hne : ¬ ecop_of response = [] := by
      intro h
      rw [h] at hlen
      simp at hlen
    have hab : ¬ (ecop_of response).headD 0 = SDO_ABORT := by
      rw [hst]
      decide
    simp only [ecop_read_process]
    rw [if_neg (by omega), if_neg hne, if_neg hab, if_pos hst, if_neg (by omega)]
  · rw [List.length_take, List.length_drop]
    omega

/-- C3 witness: the corrected 18-byte expedited frame yields the 12
data bytes spelling `ABC` padded with NULs. -/
theorem ecop_read_expedited_witness :
    6 ≤ resp_expedited_18.length ∧
    (ecop_of resp_expedited_18).headD 0 = SDO_EXPEDITED ∧
    16 ≤ (ecop_of resp_expedited_18).length ∧
    ecop_read_process (fun _ _ => []) resp_expedited_18 =
      .ok ([0x41, 0x42, 0x43, 0, 0, 0, 0, 0, 0, 0, 0, 0], []) :=
  ⟨by decide, by decide, by decide,
    ((ecop_read_expedited (fun _ _ => []) resp_expedited_18 (by decide) (by decide)
        (by decide)).1).trans (by rfl)⟩

/-- The break-style gas-slot loop agrees with the per-slot
characterization: the break is equivalent to skipping because the slot
offsets increase monotonically. -/
theorem gas_slots_eq_spec (header : List Nat) :
    ∀ fuel i, gas_slots header i fuel
      = (List.range fuel).filterMap (fun j => gas_slot_spec header (i + j)) := by
  intro fuel
  induction fuel with
  | zero => intro i; simp [gas_slots]
  | succ fuel ih =>
    intro i
    rw [List.range_succ_eq_map]
    by_cases hoob : 0x54 + i * 20 + 4 > header.length
    · have h0 : gas_slot_spec header (i + 0) = none := by
        simp only [gas_slot_spec]
        rw [if_neg (by omega)]
      simp only [List.filterMap_cons, h0, List.filterMap_map]
      have htail :
          List.filterMap ((fun j => gas_slot_spec header (i + j)) ∘ Nat.succ)
            (List.range fuel) = [] := by
        rw [List.filterMap_eq_nil_iff]
        intro j hj
        simp only [Function.comp_apply, gas_slot_spec]
        rw [if_neg (by omega)]
      rw [htail]
      simp only [gas_slots]
      rw [if_pos hoob]
    · push_neg at hoob
      have hcomp :
          List.filterMap ((fun j => gas_slot_spec header (i + j)) ∘ Nat.succ)
            (List.range fuel)
          = List.filterMap (fun j => gas_slot_spec header (i + 1 + j))
              (List.range fuel) := by
        apply List.filterMap_congr
        intro j hj
        simp only [Function.comp_apply, Nat.succ_eq_add_one]
        rw [show i + (j + 1) = i + 1 + j from by omega]
      by_cases hc : (read_u32_le header (0x54 + i * 20) / 2097152 % 4 = 1 ∨
            read_u32_le header (0x54 + i * 20) / 2097152 % 4 = 2) ∧
          0 < read_u32_le header (0x54 + i * 20) % 128 ∧
          read_u32_le header (0x54 + i * 20) % 128 ≤ 100
      · have h0 : gas_slot_spec header (i + 0)
            = some { o2 := read_u32_le header (0x54 + i * 20) % 128 } := by
          simp only [gas_slot_spec, Nat.add_zero]
          rw [if_pos (by omega), if_pos hc]
        simp only [List.filterMap_cons, h0, List.filterMap_map]
        rw [hcomp, ← ih]
        have hb : ((read_u32_le header (0x54 + i * 20) / 2097152 % 4 > 0 &&
            read_u32_le header (0x54 + i * 20) / 2097152 % 4 < 3 &&
            read_u32_le header (0x54 + i * 20) % 128 > 0 &&
            read_u32_le header (0x54 + i * 20) % 128 ≤ 100) : Bool) = true := by
          simp only [Bool.and_eq_true, decide_eq_true_eq]
          omega
        simp only [gas_slots]
        rw [if_neg (by omega), hb]
        simp
      · have h0 : gas_slot_spec header (i + 0) = none := by
          simp only [gas_slot_spec, Nat.add_zero]
          rw [if_pos (by omega), if_neg hc]
        simp only [List.filterMap_cons, h0, List.filterMap_map]
        rw [hcomp, ← ih]
        have hb : ((read_u32_le header (0x54 + i * 20) / 2097152 % 4 > 0 &&
            read_u32_le header (0x54 + i * 20) / 2097152 % 4 < 3 &&
            read_u32_le header (0x54 + i * 20) % 128 > 0 &&
            read_u32_le header (0x54 + i * 20) % 128 ≤ 100) : Bool) = false := by
          rw [Bool.eq_false_iff]
          intro h
          simp only [Bool.and_eq_true, decide_eq_true_eq] at h
          exact hc (by omega)
        simp only [gas_slots]
        rw [if_neg (by omega), hb]
        simp

/-- C8: for every accepted header, the gas-mix list equals the list of
surviving slots (a slot survives iff its state field is 1 or 2 and
`0 < o2 ≤ 100`), with a single default 21% mix substituted when no slot
survives; in particular it is never empty. -/
theorem gas_mixes_default_nonempty (dive_index : Nat) (header profile : List Nat)
    (hlen : 0x60 ≤ header.length) :
    ∃ d, parse_dive_ecop dive_index header profile = .ok d ∧
      d.gas_mixes =
        (if gas_slots_spec header = [] then [{ o2 := 21 }] else gas_slots_spec header) ∧
      d.gas_mixes ≠ [] := by
  have hne : ¬ header.length < 0x60 := by omega
  unfold parse_dive_ecop
  rw [if_neg hne]
  have hgs : gas_slots header 0 5 = gas_slots_spec header := by
    rw [gas_slots_eq_spec]
    apply List.filterMap_congr
    intro j hj
    rw [Nat.zero_add]
  refine ⟨_, rfl, ?_, ?_⟩
  · show (if gas_slots header 0 5 = [] then [{ o2 := 21 }] else gas_slots header 0 5) = _
    rw [hgs]
  · show (if gas_slots header 0 5 = [] then [{ o2 := 21 }] else gas_slots header 0 5) ≠ []
    split_ifs with h
    · simp
    · exact h

/-- C8 witness: an all-zero 0x60-byte header has no surviving slot, so
the default 21% mix is inserted and the list is non-empty. -/
theorem gas_mixes_default_nonempty_witness :
    0x60 ≤ (List.replicate 96 0 : List Nat).length ∧
    gas_slots_spec (List.replicate 96 0) = [] ∧
    ∃ d, parse_dive_ecop 0 (List.replicate 96 0) [] = .ok d ∧
      d.gas_mixes =
        (if gas_slots_spec (List.replicate 96 0) = [] then [{ o2 := 21 }]
         else gas_slots_spec (List.replicate 96 0)) ∧
      d.gas_mixes ≠ [] :=
  ⟨by decide, by decide, gas_mixes_default_nonempty 0 (List.replicate 96 0) [] (by decide)⟩

/-- `toggle ^= 1` on a toggle maintained as `i % 2` advances it to
`(i + 1) % 2`. -/
theorem mod_two_xor_one (n : Nat) : n % 2 ^^^ 1 = (n + 1) % 2 := by
  rcases Nat.mod_two_eq_zero_or_one n with h | h <;>
    · rw [h, show (n + 1) % 2 = 1 - n % 2 from by omega, h]
      decide

/-- Peeling one segment off the closed-form command trace. -/
theorem pump_trace_step (i rem : Nat) (h : 0 < rem) :
    (List.range ((rem + 240) / 241)).map
        (fun j => ((i + j) % 2,
          if (i + j) % 2 = 0 then CMD_SDO_SEGMENT_0 else CMD_SDO_SEGMENT_1,
          min (rem - 241 * j) 241))
      = ((i % 2,
          (if i % 2 = 0 then CMD_SDO_SEGMENT_0 else CMD_SDO_SEGMENT_1),
          min rem 241))
        :: (List.range (((rem - min rem 241) + 240) / 241)).map
          (fun j => ((i + 1 + j) % 2,
            if (i + 1 + j) % 2 = 0 then CMD_SDO_SEGMENT_0 else CMD_SDO_SEGMENT_1,
            min ((rem - min rem 241) - 241 * j) 241)) := by
  have hk : (rem + 240) / 241 = ((rem - min rem 241) + 240) / 241 + 1 := by omega
  rw [hk, List.range_succ_eq_map, List.map_cons, List.map_map]
  refine congrArg₂ List.cons ?_ ?_
  · simp
  · refine List.map_congr_left fun a ha => ?_
    simp only [Function.comp_apply, Nat.succ_eq_add_one, Prod.mk.injEq]
    refine ⟨by omega, ?_, by omega⟩
    rw [show i + (a + 1) = i + 1 + a from by omega]

/-- The segment pump, run with toggle `i % 2` and enough fuel, succeeds
and issues exactly the closed-form command trace, with the final data
truncated to the declared size — provided every received segment
carries the requested payload plus its toggle byte. -/
theorem sdo_segment_pump_spec (seg_recv : Nat → Nat → List Nat)
    (hseg : ∀ i n, (seg_recv i n).length = n + 1) (data_size : Nat) :
    ∀ fuel i data trace, data_size ≤ data.length + fuel →
      ∃ out, sdo_segment_pump seg_recv data_size fuel i (i % 2) data trace
          = .ok (out, trace ++
              (List.range (((data_size - data.length) + 240) / 241)).map
                (fun j => ((i + j) % 2,
                  if (i + j) % 2 = 0 then CMD_SDO_SEGMENT_0 else CMD_SDO_SEGMENT_1,
                  min (data_size - data.length - 241 * j) 241))) ∧
        out.length = data_size := by
  intro fuel
  induction fuel with
  | zero =>
    intro i data trace hf
    have hle : ¬ data.length < data_size := by omega
    have hrem : data_size - data.length = 0 := by omega
    simp only [sdo_segment_pump]
    rw [if_neg hle, hrem]
    refine ⟨data.take data_size, by norm_num, ?_⟩
    rw [List.length_take]
    omega
  | succ fuel ih =>
    intro i data trace hf
    by_cases hlt : data.length < data_size
    · have hrem : 0 < data_size - data.length := by omega
      have hsl : ¬ seg_recv i (min (data_size - data.length) 241) = [] := by
        intro h
        have hl := hseg i (min (data_size - data.length) 241)
        rw [h] at hl
        simp at hl
      simp only [sdo_segment_pump]
      rw [if_pos hlt, if_neg hsl, mod_two_xor_one]
      have hlen' : (data ++ (seg_recv i (min (data_size - data.length) 241)).tail).length
          = data.length + min (data_size - data.length) 241 := by
        rw [List.length_append, List.length_tail, hseg]
        omega
      obtain ⟨out, heq, hout⟩ := ih (i + 1)
        (data ++ (seg_recv i (min (data_size - data.length) 241)).tail)
        (trace ++ [(i % 2,
          (if i % 2 = 0 then CMD_SDO_SEGMENT_0 else CMD_SDO_SEGMENT_1),
          min (data_size - data.length) 241)])
        (by rw [hlen']; omega)
      refine ⟨out, ?_, hout⟩
      rw [heq]
      have hsub : data_size
            - (data ++ (seg_recv i (min (data_size - data.length) 241)).tail).length
          = data_size - data.length - min (data_size - data.length) 241 := by
        rw [hlen']
        omega
      rw [hsub, List.append_assoc, List.singleton_append,
        ← pump_trace_step i (data_size - data.length) hrem]
    · have hrem : data_size - data.length = 0 := by omega
      simp only [sdo_segment_pump]
      rw [if_neg hlt, hrem]
      refine ⟨data.take data_size, by norm_num, ?_⟩
      rw [List.length_take]
      omega

/-- C6: on a BF response declaring a segmented transfer of `data_size`
bytes, the engine issues exactly `ceil(data_size / 241)` segment
commands with toggles `0, 1, 0, 1, …` (command bytes `AC`, `FE`
accordingly) and requested sizes `min(remaining, 241)`, and returns the
accumulated data truncated to exactly `data_size` bytes — assuming each
received segment carries its toggle byte plus the requested payload. -/
theorem sdo_engine_segments (seg_recv : Nat → Nat → List Nat) (data_size : Nat)
    (_hds : data_size < 65536)
    (hseg : ∀ i n, (seg_recv i n).length = n + 1) :
    ∃ out, ecop_read_process seg_recv
        [0xAA, 0x41, 0x00, 0x30, 0x04, data_size % 256, data_size / 256, 0xEA]
      = .ok (out, (List.range ((data_size + 240) / 241)).map
          (fun j => (j % 2,
            if j % 2 = 0 then CMD_SDO_SEGMENT_0 else CMD_SDO_SEGMENT_1,
            min (data_size - 241 * j) 241))) ∧
      out.length = data_size := by
  have hecop :
      ecop_of [0xAA, 0x41, 0x00, 0x30, 0x04, data_size % 256, data_size / 256, 0xEA]
        = [0x41, 0x00, 0x30, 0x04, data_size % 256, data_size / 256] := rfl
  simp only [ecop_read_process, hecop]
  have h1 : ¬ ([0xAA, 0x41, 0x00, 0x30, 0x04, data_size % 256,
      data_size / 256, 0xEA] : List Nat).length < 6 := by norm_num
  have h2 : ¬ (([0x41, 0x00, 0x30, 0x04, data_size % 256,
      data_size / 256] : List Nat) = []) := by simp
  have h3 : ¬ (([0x41, 0x00, 0x30, 0x04, data_size % 256,
      data_size / 256] : List Nat).headD 0 = SDO_ABORT) := by norm_num [SDO_ABORT]
  have h4 : ¬ (([0x41, 0x00, 0x30, 0x04, data_size % 256,
      data_size / 256] : List Nat).headD 0 = SDO_EXPEDITED) := by norm_num [SDO_EXPEDITED]
  have h5 : ([0x41, 0x00, 0x30, 0x04, data_size % 256,
      data_size / 256] : List Nat).headD 0 = SDO_SEGMENTED := by norm_num [SDO_SEGMENTED]
  have h6 : ¬ (([0x41, 0x00, 0x30, 0x04, data_size % 256,
      data_size / 256] : List Nat).length < 6) := by norm_num
  rw [if_neg h1, if_neg h2, if_neg h3, if_neg h4, if_pos h5, if_neg h6]
  have hsz : (([0x41, 0x00, 0x30, 0x04, data_size % 256,
        data_size / 256] : List Nat).get? 4).getD 0
      + 256 * (([0x41, 0x00, 0x30, 0x04, data_size % 256,
        data_size / 256] : List Nat).get? 5).getD 0 = data_size := by
    simp
    omega
  rw [hsz]
  obtain ⟨out, heq, hout⟩ :=
    sdo_segment_pump_spec seg_recv hseg data_size data_size 0 [] [] (by simp)
  simp only [List.length_nil, Nat.sub_zero, List.nil_append, Nat.zero_add] at heq
  exact ⟨out, heq, hout⟩

/-- C6 witness: a 300-byte segmented upload issues exactly two segment
commands, `AC` requesting 241 bytes then `FE` requesting 59, and
returns 300 bytes. -/
theorem sdo_engine_segments_witness :
    (300 : Nat) < 65536 ∧
    (∀ i n : Nat, (((fun _ n => List.replicate (n + 1) 7) : Nat → Nat → List Nat) i n).length = n + 1) ∧
    ∃ out, ecop_read_process (fun _ n => List.replicate (n + 1) 7)
        [0xAA, 0x41, 0x00, 0x30, 0x04, 300 % 256, 300 / 256, 0xEA]
      = .ok (out, [(0, CMD_SDO_SEGMENT_0, 241), (1, CMD_SDO_SEGMENT_1, 59)]) ∧
      out.length = 300 := by
  refine ⟨by norm_num, fun i n => by simp, ?_⟩
  obtain ⟨out, heq, hl⟩ := sdo_engine_segments (fun _ n => List.replicate (n + 1) 7)
    300 (by norm_num) (fun i n => by simp)
  exact ⟨out, heq, hl⟩

/-- Each complete DPRS record occupies 34 bytes. -/
theorem dprs_flatten_length (recs : List (List Nat)) (hr : ∀ r ∈ recs, r.length = 30) :
    ((recs.map (fun r => TAG_DPRS ++ r)).flatten).length = 34 * recs.length := by
  induction recs with
  | nil => simp
  | cons r rs ih =>
    simp only [List.map_cons, List.flatten_cons, List.length_append, List.length_cons]
    rw [ih (fun x hx => hr x (List.mem_cons_of_mem _ hx)), hr r (List.mem_cons_self _ _)]
    simp only [TAG_DPRS, List.length_cons, List.length_nil]
    ring

/-- Scanning a run of complete DPRS records from the record boundary
emits one sample per record, with times advancing by the sample
interval. -/
theorem profile_loop_dprs_chain (si : Nat) :
    ∀ (recs : List (List Nat)) (pre : List Nat) (t : Nat) (lp : Option ℚ) (fuel : Nat),
      (∀ r ∈ recs, r.length = 30) →
      (pre ++ (recs.map (fun r => TAG_DPRS ++ r)).flatten).length - pre.length < fuel →
      (ecop_profile_loop (pre ++ (recs.map (fun r => TAG_DPRS ++ r)).flatten) si fuel
          pre.length t lp).map Sample.time_s
        = (List.range recs.length).map (fun j => t + si * j) := by
  intro recs
  induction recs with
  | nil =>
    intro pre t lp fuel hr hf
    cases fuel with
    | zero => simp [ecop_profile_loop]
    | succ fuel =>
      simp only [List.map_nil, List.flatten_nil, List.append_nil] at hf ⊢
      simp only [ecop_profile_loop]
      rw [if_neg (by omega)]
      simp
  | cons r rs ih =>
    intro pre t lp fuel hr hf
    have hrlen : r.length = 30 := hr r (List.mem_cons_self _ _)
    have hrs : ∀ x ∈ rs, x.length = 30 := fun x hx => hr x (List.mem_cons_of_mem _ hx)
    have hjrs : ((rs.map (fun x => TAG_DPRS ++ x)).flatten).length = 34 * rs.length :=
      dprs_flatten_length rs hrs
    have htl : (TAG_DPRS : List Nat).length = 4 := rfl
    simp only [List.map_cons, List.flatten_cons] at hf ⊢
    have hP : pre ++ ((TAG_DPRS ++ r) ++ (rs.map (fun x => TAG_DPRS ++ x)).flatten)
        = (pre ++ (TAG_DPRS ++ r)) ++ (rs.map (fun x => TAG_DPRS ++ x)).flatten :=
      (List.append_assoc _ _ _).symm
    have hlenP : (pre ++ ((TAG_DPRS ++ r) ++ (rs.map (fun x => TAG_DPRS ++ x)).flatten)).length
        = pre.length + 34 + 34 * rs.length := by
      simp only [List.length_append, hjrs, hrlen, htl]
      ring
    cases fuel with
    | zero =>
      rw [hlenP] at hf
      omega
    | succ fuel =>
      simp only [ecop_profile_loop]
      rw [if_pos (by rw [hlenP]; omega)]
      have htag : ((pre ++ ((TAG_DPRS ++ r) ++ (rs.map (fun x => TAG_DPRS ++ x)).flatten)).drop
          pre.length).take 4 = TAG_DPRS := by
        rw [List.drop_left]
        rw [show ((TAG_DPRS ++ r) ++ (rs.map (fun x => TAG_DPRS ++ x)).flatten)
            = TAG_DPRS ++ (r ++ (rs.map (fun x => TAG_DPRS ++ x)).flatten)
          from List.append_assoc _ _ _]
        rw [List.take_append_of_le_length (by rw [htl])]
        rfl
      rw [htag]
      rw [if_neg (by decide), if_neg (by decide), if_pos rfl,
        if_neg (by rw [hlenP]; simp only [RECORD_DPRS]; omega)]
      simp only [List.map_cons]
      have hoff : pre.length + RECORD_DPRS = (pre ++ (TAG_DPRS ++ r)).length := by
        simp only [List.length_append, hrlen, htl, RECORD_DPRS]
      rw [hoff, hP]
      have hfuel : ((pre ++ (TAG_DPRS ++ r)) ++ (rs.map (fun x => TAG_DPRS ++ x)).flatten).length
          - (pre ++ (TAG_DPRS ++ r)).length < fuel := by
        rw [← hP, hlenP] at *
        simp only [List.length_append, hrlen, htl] at *
        omega
      rw [ih (pre ++ (TAG_DPRS ++ r)) (t + si) lp fuel hrs hfuel]
      rw [List.length_cons, List.range_succ_eq_map, List.map_cons, List.map_map]
      refine congrArg₂ List.cons (by simp) ?_
      refine List.map_congr_left fun a ha => ?_
      simp only [Function.comp_apply, Nat.succ_eq_add_one, Nat.mul_add, Nat.mul_one]
      ring

/-- C4 counterexample: a profile consisting of one 58-byte DSTR record
(whose filler bytes 4..8 spell `DSTR`) followed by one complete 34-byte
DPRS record makes the decoder skip 4 bytes up front, land inside the
records, and emit no sample at all instead of the one sample the claim
requires. -/
theorem profile_dstr_trap_counterexample :
    prof_dstr_trap
      = TAG_DSTR ++ (TAG_DSTR ++ List.replicate 50 0)
        ++ ([List.replicate 30 0].map (fun r => TAG_DPRS ++ r)).flatten ∧
    (TAG_DSTR ++ List.replicate 50 0 : List Nat).length = 54 ∧
    (∀ r ∈ [List.replicate 30 (0 : Nat)], r.length = 30) ∧
    (parse_ecop_profile prof_dstr_trap 5).map Sample.time_s = [] ∧
    ([] : List Nat) ≠ (List.range 1).map (fun j => 5 * j) := by
  exact ⟨rfl, by decide, by simp, rfl, by decide⟩

/-- One scan step on a DSTR tag advances the offset by 58. -/
theorem ecop_profile_loop_dstr (profile : List Nat) (si fuel offset t : Nat) (lp : Option ℚ)
    (hguard : offset + 4 ≤ profile.length)
    (htag : (profile.drop offset).take 4 = TAG_DSTR) :
    ecop_profile_loop profile si (fuel + 1) offset t lp
      = ecop_profile_loop profile si fuel (offset + RECORD_DSTR) t lp := by
  simp only [ecop_profile_loop]
  rw [if_pos hguard, htag, if_pos rfl]

/-- C4 (amended): for every profile of one 58-byte DSTR record followed
by k complete 34-byte DPRS records, with arbitrary filler bytes except
that the DSTR filler at profile offsets 4..8 must not spell `DSTR`
(which would trip the classifier-skip heuristic), the decoder emits
exactly k samples with times `0, 5, 10, …, 5(k-1)` in order. -/
theorem profile_dstr_dprs_samples (g : List Nat) (recs : List (List Nat))
    (hg : g.length = 54) (hr : ∀ r ∈ recs, r.length = 30)
    (hskip : g.take 4 ≠ TAG_DSTR) :
    (parse_ecop_profile (TAG_DSTR ++ g ++ (recs.map (fun r => TAG_DPRS ++ r)).flatten) 5).map
        Sample.time_s
      = (List.range recs.length).map (fun j => 5 * j) := by
  have hjlen := dprs_flatten_length recs hr
  have htd : (TAG_DSTR : List Nat).length = 4 := rfl
  have hlenP : (TAG_DSTR ++ g ++ (recs.map (fun r => TAG_DPRS ++ r)).flatten).length
      = 58 + 34 * recs.length := by
    simp only [List.length_append, hjlen, hg, htd]
  have hd4 : ((TAG_DSTR ++ g ++ (recs.map (fun r => TAG_DPRS ++ r)).flatten).drop 4).take 4
      = g.take 4 := by
    rw [List.append_assoc, show (4 : Nat) = (TAG_DSTR : List Nat).length from rfl,
      List.drop_left]
    exact List.take_append_of_le_length (by omega)
  unfold parse_ecop_profile
  have hcond : ((8 ≤ (TAG_DSTR ++ g ++ (recs.map (fun r => TAG_DPRS ++ r)).flatten).length) &&
      (((TAG_DSTR ++ g ++ (recs.map (fun r => TAG_DPRS ++ r)).flatten).drop 4).take 4
        = TAG_DSTR) : Bool) = false := by
    rw [Bool.eq_false_iff]
    intro hcc
    simp only [Bool.and_eq_true, decide_eq_true_eq] at hcc
    exact hskip (by rw [← hd4]; exact hcc.2)
  rw [hcond]
  simp only [Bool.false_eq_true, if_false]
  have htag0 : ((TAG_DSTR ++ g ++ (recs.map (fun r => TAG_DPRS ++ r)).flatten).drop 0).take 4
      = TAG_DSTR := by
    rw [List.drop_zero, List.append_assoc]
    rw [show (4 : Nat) = (TAG_DSTR : List Nat).length from rfl, List.take_left]
  rw [ecop_profile_loop_dstr _ _ _ _ _ _ (by rw [hlenP]; omega) htag0]
  have h58 : 0 + RECORD_DSTR = ((TAG_DSTR ++ g) : List Nat).length := by
    simp [RECORD_DSTR, hg, htd]
  rw [h58]
  have hfuel : ((TAG_DSTR ++ g) ++ (recs.map (fun r => TAG_DPRS ++ r)).flatten).length
      - ((TAG_DSTR ++ g) : List Nat).length
      < (TAG_DSTR ++ g ++ (recs.map (fun r => TAG_DPRS ++ r)).flatten).length := by
    simp only [List.length_append, hjlen, hg, htd]
    omega
  rw [profile_loop_dprs_chain 5 recs (TAG_DSTR ++ g) 0 none
    ((TAG_DSTR ++ g ++ (recs.map (fun r => TAG_DPRS ++ r)).flatten).length) hr hfuel]
  simp only [Nat.zero_add]

/-- C4 witness: one DSTR record with benign filler followed by one DPRS
record yields exactly one sample at time 0. -/
theorem profile_dstr_dprs_samples_witness :
    (List.replicate 54 1 : List Nat).length = 54 ∧
    (∀ r ∈ [List.replicate 30 (0 : Nat)], r.length = 30) ∧
    (List.replicate 54 1 : List Nat).take 4 ≠ TAG_DSTR ∧
    (parse_ecop_profile (TAG_DSTR ++ List.replicate 54 1
        ++ ([List.replicate 30 0].map (fun r => TAG_DPRS ++ r)).flatten) 5).map Sample.time_s
      = (List.range 1).map (fun j => 5 * j) :=
  ⟨by decide, by simp, by decide,
    profile_dstr_dprs_samples (List.replicate 54 1) [List.replicate 30 0] (by decide)
      (by simp) (by decide)⟩

/-- In-bounds u16 reads agree with the totalised reader. -/
theorem read_u16_ob_eq (l : List Nat) (o : Nat) (h : o + 1 < l.length) :
    read_u16_ob l o = some (read_u16_le l o) := by
  unfold read_u16_ob read_u16_le
  cases h1 : l.get? o with
  | none =>
    rw [List.get?_eq_none] at h1
    omega
  | some a =>
    cases h2 : l.get? (o + 1) with
    | none =>
      rw [List.get?_eq_none] at h2
      omega
    | some b => simp [h1, h2]

/-- C10: the profile decoder is total and memory safe: on every byte
sequence and sample interval, the bounds-checked instrumentation (which
reports fuel exhaustion or any out-of-bounds byte access as `none`)
returns exactly the decoder's sample list — so the scan loop terminates
within `profile.length + 1` iterations (the offset strictly increases)
and never reads out of bounds. -/
theorem parse_ecop_profile_total (profile : List Nat) (si : Nat) :
    parse_ecop_profile_ob profile si = some (parse_ecop_profile profile si) := by
  have key : ∀ fuel offset t lp, profile.length - offset < fuel →
      ecop_profile_loop_ob profile si fuel offset t lp
        = some (ecop_profile_loop profile si fuel offset t lp) := by
    intro fuel
    induction fuel with
    | zero => intro o t lp hf; omega
    | succ fuel ih =>
      intro o t lp hf
      have hR1 : RECORD_DSTR = 58 := rfl
      have hR2 : RECORD_TISS = 138 := rfl
      have hR3 : RECORD_DPRS = 34 := rfl
      have hR4 : RECORD_AIRS = 16 := rfl
      have hR5 : RECORD_DEND = 162 := rfl
      by_cases hg : o + 4 ≤ profile.length
      · have hsl : slice? profile o 4 = some ((profile.drop o).take 4) := by
          unfold slice?
          rw [if_pos hg]
        simp only [ecop_profile_loop_ob, ecop_profile_loop, hsl, if_pos hg]
        by_cases h1 : (profile.drop o).take 4 = TAG_DSTR
        · rw [if_pos h1, if_pos h1]
          exact ih _ _ _ (by omega)
        · rw [if_neg h1, if_neg h1]
          by_cases h2 : (profile.drop o).take 4 = TAG_TISS
          · rw [if_pos h2, if_pos h2]
            exact ih _ _ _ (by omega)
          · rw [if_neg h2, if_neg h2]
            by_cases h3 : (profile.drop o).take 4 = TAG_DPRS
            · rw [if_pos h3, if_pos h3]
              by_cases h4 : o + RECORD_DPRS > profile.length
              · rw [if_pos h4, if_pos h4]
              · rw [if_neg h4, if_neg h4]
                rw [read_u16_ob_eq profile (o + 4) (by omega),
                  read_u16_ob_eq profile (o + 8) (by omega)]
                rw [ih (o + RECORD_DPRS) (t + si) lp (by omega)]
                simp only [Option.map_some']
            · rw [if_neg h3, if_neg h3]
              by_cases h5 : (profile.drop o).take 4 = TAG_AIRS
              · rw [if_pos h5, if_pos h5]
                by_cases h6 : o + RECORD_AIRS > profile.length
                · rw [if_pos h6, if_pos h6]
                · rw [if_neg h6, if_neg h6]
                  rw [read_u16_ob_eq profile (o + 4) (by omega)]
                  exact ih _ _ _ (by omega)
              · rw [if_neg h5, if_neg h5]
                by_cases h7 : (profile.drop o).take 4 = TAG_DEND
                · rw [if_pos h7, if_pos h7]
                  exact ih _ _ _ (by omega)
                · rw [if_neg h7, if_neg h7]
                  exact ih _ _ _ (by omega)
      · simp only [ecop_profile_loop_ob, ecop_profile_loop]
        rw [if_neg hg, if_neg hg]
  unfold parse_ecop_profile_ob parse_ecop_profile
  by_cases h8 : 8 ≤ profile.length
  · have hsl : slice? profile 4 4 = some ((profile.drop 4).take 4) := by
      unfold slice?
      rw [if_pos (by omega)]
    rw [if_pos h8]
    simp only [hsl]
    by_cases h9 : (profile.drop 4).take 4 = TAG_DSTR
    · simp only [h9, h8, decide_True, Bool.true_and, if_pos rfl]
      exact key _ _ _ _ (by omega)
    · simp only [if_neg h9]
      have hb : ((8 ≤ profile.length) && ((profile.drop 4).take 4 = TAG_DSTR) : Bool)
          = false := by
        simp [h9]
      simp only [hb, Bool.false_eq_true, if_false]
      exact key _ _ _ _ (by omega)
  · rw [if_neg h8]
    have hb : ((8 ≤ profile.length) && ((profile.drop 4).take 4 = TAG_DSTR) : Bool)
        = false := by
      simp [h8]
    simp only [hb, Bool.false_eq_true, if_false]
    exact key _ _ _ _ (by omega)
